import Mathlib

/-!
Shallow embedding of the Event Classification & Directional Scoring Engine of
`scripts/nextday_summary.py` (tel-bot): numeric normalization (`_to_float`),
event classification (`_event_type`), directional signal (`eval_signal`),
weighting (`_impact_weight`, `_recency_weight`, `surprise_ratio`), the
curation filter and the per-currency / per-pair score aggregation performed by
`main`'s event loop.

Python floats are modelled as exact rationals together with the IEEE special
values (infinities and NaN); magnitudes are exact, i.e. the model does not
reproduce binary rounding or overflow, which no property here depends on.
Strings are lists of characters; `None` is `Option.none`.
-/

namespace TelBot

/-- A Python float value as produced by `float(...)`: a finite value
(modelled exactly as a rational), one of the two infinities, or NaN. -/
inductive PyFloat where
  | finite (q : ℚ)
  | inf
  | ninf
  | nan
deriving DecidableEq

/-- Python `>` on floats: any comparison with NaN is false. -/
def pyGt : PyFloat → PyFloat → Bool
  | .nan, _ => false
  | _, .nan => false
  | .inf, .inf => false
  | .inf, _ => true
  | .ninf, _ => false
  | .finite _, .inf => false
  | .finite _, .ninf => true
  | .finite q, .finite r => decide (r < q)

/-- Python `==` on floats: NaN is not equal to anything, including itself. -/
def pyEq : PyFloat → PyFloat → Bool
  | .finite q, .finite r => decide (q = r)
  | .inf, .inf => true
  | .ninf, .ninf => true
  | _, _ => false

/-- Python `<` on floats. -/
def pyLt (a b : PyFloat) : Bool := pyGt b a

/-- Python `>=` on floats (false whenever either side is NaN). -/
def pyGe (a b : PyFloat) : Bool := pyGt a b || pyEq a b

/-- Python `abs` on floats. -/
def pyAbs : PyFloat → PyFloat
  | .finite q => .finite |q|
  | .inf => .inf
  | .ninf => .inf
  | .nan => .nan

/-- Python subtraction on floats. -/
def pySub : PyFloat → PyFloat → PyFloat
  | .nan, _ => .nan
  | _, .nan => .nan
  | .inf, .inf => .nan
  | .inf, _ => .inf
  | .ninf, .ninf => .nan
  | .ninf, _ => .ninf
  | .finite _, .inf => .ninf
  | .finite _, .ninf => .inf
  | .finite q, .finite r => .finite (q - r)

/-- Python division on floats.  In this program the divisor is never a finite
zero (`surprise_ratio` guards `f == 0` first); the finite/finite clause uses
rational division, whose value at divisor 0 is never reached. -/
def pyDiv : PyFloat → PyFloat → PyFloat
  | .nan, _ => .nan
  | _, .nan => .nan
  | .inf, .inf => .nan
  | .inf, .ninf => .nan
  | .ninf, .inf => .nan
  | .ninf, .ninf => .nan
  | .inf, .finite r => if r < 0 then .ninf else .inf
  | .ninf, .finite r => if r < 0 then .inf else .ninf
  | .finite _, .inf => .finite 0
  | .finite _, .ninf => .finite 0
  | .finite q, .finite r => .finite (q / r)

/-- Multiplication of a float by a positive rational constant (the K/M/B/T
unit multipliers 1e3 … 1e12, all positive, so infinities keep their sign). -/
def pyMulRat : PyFloat → ℚ → PyFloat
  | .finite q, m => .finite (q * m)
  | .inf, _ => .inf
  | .ninf, _ => .ninf
  | .nan, _ => .nan

/-- Value of a list of decimal digits. -/
def digitsVal (ds : List Char) : Nat :=
  ds.foldl (fun a c => 10 * a + (c.toNat - '0'.toNat)) 0

/-- Scan a digit run after its first digit, allowing a single `_` only
between digits (Python numeric-literal grouping accepted by `float`). -/
def scanDigitsAux : List Char → (List Char × List Char)
  | '_' :: c :: rest =>
    if c.isDigit then
      let (ds, r) := scanDigitsAux rest
      (c :: ds, r)
    else ([], '_' :: c :: rest)
  | c :: rest =>
    if c.isDigit then
      let (ds, r) := scanDigitsAux rest
      (c :: ds, r)
    else ([], c :: rest)
  | [] => ([], [])

/-- Scan a maximal digit group (must start with a digit); returns the digits
with grouping underscores removed, and the unconsumed remainder. -/
def scanDigits : List Char → (List Char × List Char)
  | c :: rest =>
    if c.isDigit then
      let (ds, r) := scanDigitsAux rest
      (c :: ds, r)
    else ([], c :: rest)
  | [] => ([], [])

/-- Parse the optional exponent part of a float literal and apply it to the
mantissa `m`; anything but a well-formed complete exponent fails. -/
def parseExpPart (m : ℚ) : List Char → Option ℚ
  | [] => some m
  | e :: rest =>
    if e = 'e' ∨ e = 'E' then
      let (eneg, rest2) := match rest with
        | '+' :: r => (false, r)
        | '-' :: r => (true, r)
        | r => (false, r)
      let (ds, rest3) := scanDigits rest2
      if ds = [] ∨ rest3 ≠ [] then none
      else
        let ex := digitsVal ds
        some (if eneg then m / 10 ^ ex else m * 10 ^ ex)
    else none

/-- Parse an unsigned decimal float literal: `digits [. digits] [e±digits]`
with at least one mantissa digit, exactly as accepted by Python `float`. -/
def parseDecimal (s : List Char) : Option ℚ :=
  let (ip, r1) := scanDigits s
  let (fp, r2) := match r1 with
    | '.' :: r => scanDigits r
    | _ => ([], r1)
  if ip = [] ∧ fp = [] then none
  else parseExpPart ((digitsVal ip : ℚ) + (digitsVal fp : ℚ) / 10 ^ fp.length) r2

/-- Strip leading and trailing whitespace. -/
def stripWs (s : List Char) : List Char :=
  ((s.dropWhile Char.isWhitespace).reverse.dropWhile Char.isWhitespace).reverse

/-- Python's built-in `float(str)`: strips whitespace, takes an optional
sign, accepts `nan` / `inf` / `infinity` case-insensitively, otherwise a
decimal literal; any other input raises, modelled as `none`. -/
def pyFloatOfChars (s0 : List Char) : Option PyFloat :=
  let s1 := stripWs s0
  let (neg, s2) := match s1 with
    | '+' :: r => (false, r)
    | '-' :: r => (true, r)
    | r => (false, r)
  let ls := s2.map Char.toLower
  if ls = "nan".toList then some .nan
  else if ls = "inf".toList ∨ ls = "infinity".toList then
    some (if neg then .ninf else .inf)
  else (parseDecimal s2).map (fun q => .finite (if neg then -q else q))

/-- A value as received by `_to_float`: Python `None`, an `int`/`float`, or
a string. -/
inductive PyVal where
  | null
  | num (v : PyFloat)
  | str (s : List Char)
deriving DecidableEq

/-- The placeholder tokens `{"—", "-", "N/A", "na", "NaN"}` of `_to_float`
(the empty string is tested separately by `if not s`). -/
def placeholderTokens : List (List Char) :=
  ["—".toList, "-".toList, "N/A".toList, "na".toList, "NaN".toList]

/-- Unit multiplier of a K/M/B/T suffix character (case-insensitive). -/
def suffixMult (c : Char) : Option ℚ :=
  match c.toUpper with
  | 'K' => some 1000
  | 'M' => some 1000000
  | 'B' => some 1000000000
  | 'T' => some 1000000000000
  | _ => none

/-- Whether a string matches the regex group `[-+]?\d*\.?\d*` completely. -/
def suffixBaseShape (s : List Char) : Bool :=
  let s1 := match s with
    | '+' :: r => r
    | '-' :: r => r
    | r => r
  let t := s1.dropWhile Char.isDigit
  match t with
  | [] => true
  | '.' :: r => (r.dropWhile Char.isDigit).isEmpty
  | _ => false

/-- Match `^([-+]?\d*\.?\d*)([KMBT])$` (case-insensitive suffix): on success
return the numeric prefix and the suffix's multiplier. -/
def suffixSplit (s : List Char) : Option (List Char × ℚ) :=
  match s.getLast? with
  | some c =>
    match suffixMult c with
    | some m => if suffixBaseShape s.dropLast then some (s.dropLast, m) else none
    | none => none
  | none => none

/-- Embedding of `_to_float`: numbers pass through; a string is stripped,
checked against the placeholder tokens, has spaces removed and commas turned
into periods and a trailing `%` dropped, then is parsed either via the
K/M/B/T suffix rule or plain `float`; every failure yields `none`. -/
def toFloat : PyVal → Option PyFloat
  | .null => none
  | .num v => some v
  | .str s0 =>
    let s1 := stripWs s0
    if s1 = [] ∨ s1 ∈ placeholderTokens then none
    else
      let s2 := (s1.filter (fun c => c != ' ')).map (fun c => if c = ',' then '.' else c)
      let s3 := if s2.getLast? = some '%' then s2.dropLast else s2
      match suffixSplit s3 with
      | some (base, m) =>
        match pyFloatOfChars base with
        | some v => some (pyMulRat v m)
        | none => none
      | none => pyFloatOfChars s3

/-- The closed enumeration of event categories of `_event_type`. -/
inductive EventType where
  | inflation | rates | jobs | gdp | retail | pmi | production | trade | sentiment | housing | other
deriving DecidableEq

/-- Python's `needle in hay` substring test on strings. -/
def containsSub (needle : List Char) : List Char → Bool
  | [] => needle.isEmpty
  | c :: rest => needle.isPrefixOf (c :: rest) || containsSub needle rest

/-- Embedding of `_event_type`: lower-case the title and test the keyword
groups in source order, first match wins, default `other`. -/
def eventType (title : List Char) : EventType :=
  let t := title.map Char.toLower
  if containsSub "cpi".toList t || containsSub "inflation".toList t then .inflation
  else if containsSub "rate".toList t || containsSub "interest".toList t
      || containsSub "press conference".toList t || containsSub "monetary".toList t then .rates
  else if ["unemployment", "jobless", "payroll", "nfp", "claims"].any
      (fun k => containsSub k.toList t) then .jobs
  else if containsSub "gdp".toList t then .gdp
  else if containsSub "retail sales".toList t then .retail
  else if containsSub "pmi".toList t || containsSub "ism".toList t then .pmi
  else if ["industrial production", "factory", "orders"].any
      (fun k => containsSub k.toList t) then .production
  else if containsSub "trade balance".toList t || containsSub "current account".toList t then .trade
  else if ["sentiment", "confidence", "expectations", "optimism"].any
      (fun k => containsSub k.toList t) then .sentiment
  else if ["housing", "building permits", "pending home"].any
      (fun k => containsSub k.toList t) then .housing
  else .other

/-- Embedding of the `_HIGHER_IS_BETTER` table (`None` for `other`). -/
def higherIsBetter : EventType → Option Bool
  | .inflation => some true
  | .rates => some true
  | .jobs => some false
  | .gdp => some true
  | .retail => some true
  | .pmi => some true
  | .production => some true
  | .trade => some true
  | .sentiment => some true
  | .housing => some true
  | .other => none

/-- Embedding of `eval_signal`: normalize actual and forecast, return 0 if
either is absent or the category's polarity is unknown, otherwise compare
according to the polarity. -/
def evalSignal (titleRaw actualRaw forecastRaw : List Char) : Int :=
  match toFloat (.str actualRaw), toFloat (.str forecastRaw) with
  | some a, some f =>
    match higherIsBetter (eventType titleRaw) with
    | none => 0
    | some true => if pyGt a f then 1 else -1
    | some false => if pyLt a f then 1 else -1
  | _, _ => 0

/-- Embedding of `_impact_weight`: case-insensitive substring tests on the
impact text (`"high"` before `"med"`). -/
def impactWeight (impactRaw : List Char) : ℚ :=
  let s := impactRaw.map Char.toLower
  if containsSub "high".toList s then 2
  else if containsSub "med".toList s then 13 / 10
  else 1

/-- Embedding of `_recency_weight`: `none` stands for a missing or invalid
timestamp (the `except` branch); otherwise tier on age in hours relative to
`now` (both in epoch seconds, UTC). -/
def recencyWeight (ts : Option Int) (now : Int) : ℚ :=
  match ts with
  | none => 1
  | some t =>
    let ageH : ℚ := ((now - t : Int) : ℚ) / 3600
    if ageH ≤ 6 then 8 / 5
    else if ageH ≤ 24 then 5 / 4
    else if ageH ≤ 72 then 1
    else 3 / 4

/-- Embedding of `impact_level`: high → 2, med → 1, low and anything else → 0. -/
def impactLevel (s : List Char) : Nat :=
  let t := s.map Char.toLower
  if containsSub "high".toList t then 2
  else if containsSub "med".toList t then 1
  else if containsSub "low".toList t then 0
  else 0

/-- The configurable thresholds of the curation filter: `minImpact` is the
already-lowercased `MIN_IMPACT` environment string, `minSurprise` is
`MIN_SURPRISE_PCT`. -/
structure Config where
  minImpact : List Char
  minSurprise : ℚ
deriving DecidableEq

/-- Embedding of `min_impact_level`: `startswith("h")` → 2, `"m"` → 1, else 0. -/
def minImpactLevel (cfg : Config) : Nat :=
  match cfg.minImpact with
  | 'h' :: _ => 2
  | 'm' :: _ => 1
  | _ => 0

/-- The documented defaults: `MIN_IMPACT = "medium"`, `MIN_SURPRISE_PCT = 0.10`. -/
def defaultConfig : Config := ⟨"medium".toList, 1 / 10⟩

/-- Embedding of `surprise_ratio`: 0.0 when either value is absent or the
forecast equals 0, otherwise `abs(a − f) / abs(f)` in float arithmetic. -/
def surpriseRatio (actualRaw forecastRaw : List Char) : PyFloat :=
  match toFloat (.str actualRaw), toFloat (.str forecastRaw) with
  | some a, some f =>
    if pyEq f (.finite 0) then .finite 0
    else pyDiv (pyAbs (pySub a f)) (pyAbs f)
  | _, _ => .finite 0

/-- A calendar event as consumed by `main`'s loop: the JSON fields used by
the scoring engine, each possibly missing. -/
structure Event where
  country : Option (List Char)
  title : Option (List Char)
  actual : Option (List Char)
  forecast : Option (List Char)
  previous : Option (List Char)
  impact : Option (List Char)
  timestamp : Option Int
deriving DecidableEq

/-- `cur = (ev.get("country") or "").upper()`. -/
def curOf (ev : Event) : List Char := (ev.country.getD []).map Char.toUpper

/-- `title_raw = (ev.get("title") or "").strip()`. -/
def titleOf (ev : Event) : List Char := stripWs (ev.title.getD [])

/-- `actual_raw = str(ev.get("actual") or "").strip()`. -/
def actualOf (ev : Event) : List Char := stripWs (ev.actual.getD [])

/-- `forecast_raw = str(ev.get("forecast") or "").strip()`. -/
def forecastOf (ev : Event) : List Char := stripWs (ev.forecast.getD [])

/-- `impact_raw = str(ev.get("impact") or "").strip()`. -/
def impactOf (ev : Event) : List Char := stripWs (ev.impact.getD [])

/-- `has_actual = actual_raw not in {"", "-", "—", "N/A", "na", "NaN"}`. -/
def hasActual (ev : Event) : Bool :=
  !(decide (actualOf ev ∈ ([] : List Char) :: placeholderTokens))

/-- `CORE_TYPES = {"inflation", "rates", "jobs", "gdp", "pmi", "retail"}`. -/
def coreTypes : List EventType := [.inflation, .rates, .jobs, .gdp, .pmi, .retail]

/-- The curation condition applied to a released event before it is scored
and added to the highlight list (the negated `continue` test in `main`). -/
def curatedReleased (cfg : Config) (ev : Event) : Bool :=
  let lvl := impactLevel (impactOf ev)
  let typ := eventType (titleOf ev)
  let surpr := surpriseRatio (actualOf ev) (forecastOf ev)
  (decide (minImpactLevel cfg ≤ lvl) && decide (typ ∈ coreTypes))
    || decide (lvl = 2)
    || pyGe surpr (.finite cfg.minSurprise)

/-- The curation condition applied to a pending (no-actual) event before it
is added to the upcoming list. -/
def curatedPending (cfg : Config) (ev : Event) : Bool :=
  decide (minImpactLevel cfg ≤ impactLevel (impactOf ev))
    && decide (eventType (titleOf ev) ∈ coreTypes)

/-- `cur_gain = float(sig) * w_imp * w_rec`. -/
def gain (now : Int) (ev : Event) : ℚ :=
  (evalSignal (titleOf ev) (actualOf ev) (forecastOf ev) : ℚ)
    * impactWeight (impactOf ev) * recencyWeight ev.timestamp now

/-- An event reaches the scoring statements exactly when it is released and
survives the curation filter. -/
def scoredEvent (cfg : Config) (ev : Event) : Bool :=
  hasActual ev && curatedReleased cfg ev

/-- `relevant = [ev for ev in feed if (ev.country or "").upper() in target]`. -/
def relevantEvents (target : List (List Char)) (evs : List Event) : List Event :=
  evs.filter (fun ev => decide (curOf ev ∈ target))

/-- The final value of `scores[c]` after `main`'s loop over `evs`: the sum of
the weighted gains of the scored events of currency `c`. -/
def currencyScore (cfg : Config) (now : Int) (evs : List Event) (c : List Char) : ℚ :=
  ((evs.filter (fun ev => scoredEvent cfg ev && decide (curOf ev = c))).map (gain now)).sum

/-- The final value of `pair_scores[base ++ quote]` after `main`'s loop:
scored events add their gain when their currency is the base and subtract it
when it is the quote (an `elif`, so nothing is subtracted when the two
coincide). -/
def pairScoreInc (cfg : Config) (now : Int) (evs : List Event) (base quote : List Char) : ℚ :=
  evs.foldl
    (fun acc ev =>
      if scoredEvent cfg ev then
        if curOf ev = base then acc + gain now ev
        else if curOf ev = quote then acc - gain now ev
        else acc
      else acc)
    0

/-- A released USD CPI event with low impact and a 2.9% surprise: it fails
every branch of the curation filter under the default thresholds. -/
def evUsdLowCpi : Event :=
  ⟨some "USD".toList, some "Core CPI m/m".toList, some "3.5".toList, some "3.4".toList,
   none, some "low".toList, none⟩

/-- A released EUR CPI event with high impact: it passes the curation filter
and carries gain `(+1) * 2.0 * 1.0 = 2`. -/
def evEurHighCpi : Event :=
  ⟨some "EUR".toList, some "CPI Flash Estimate y/y".toList, some "3.5".toList, some "3.4".toList,
   none, some "High".toList, none⟩

/-- A released low-impact `other`-category event with surprise ratio 0.05. -/
def evLowOther : Event :=
  ⟨some "USD".toList, some "Foo".toList, some "2.1".toList, some "2.0".toList,
   none, some "low".toList, none⟩

/-- The same event as `evLowOther` but with high impact. -/
def evHighOther : Event :=
  ⟨some "USD".toList, some "Foo".toList, some "2.1".toList, some "2.0".toList,
   none, some "high".toList, none⟩

/-- The ordered keyword groups of the EventClassifier contract, written as
data: category paired with its keyword set, in priority order. -/
def classifierGroups : List (EventType × List (List Char)) :=
  [(.inflation, ["cpi".toList, "inflation".toList]),
   (.rates, ["rate".toList, "interest".toList, "press conference".toList, "monetary".toList]),
   (.jobs, ["unemployment".toList, "jobless".toList, "payroll".toList, "nfp".toList,
            "claims".toList]),
   (.gdp, ["gdp".toList]),
   (.retail, ["retail sales".toList]),
   (.pmi, ["pmi".toList, "ism".toList]),
   (.production, ["industrial production".toList, "factory".toList, "orders".toList]),
   (.trade, ["trade balance".toList, "current account".toList]),
   (.sentiment, ["sentiment".toList, "confidence".toList, "expectations".toList,
                 "optimism".toList]),
   (.housing, ["housing".toList, "building permits".toList, "pending home".toList])]

/-- First-match-wins classification over an ordered group list (the spec's
reading of the classifier); no match falls through to `other`. -/
def firstMatch (groups : List (EventType × List (List Char))) (t : List Char) : EventType :=
  match groups with
  | [] => .other
  | (c, ks) :: rest => if ks.any (fun k => containsSub k t) then c else firstMatch rest t

/-! ### Helper lemmas -/

theorem pyGt_self (v : PyFloat) : pyGt v v = false := by
  cases v <;> simp [pyGt]

theorem evalSignal_absent (t a f : List Char)
    (h : toFloat (.str a) = none ∨ toFloat (.str f) = none) : evalSignal t a f = 0 := by
  unfold evalSignal
  rcases h with h | h
  · rw [h]
  · cases ha : toFloat (.str a)
    · rfl
    · rw [h]

theorem evalSignal_other (t a f : List Char)
    (h : higherIsBetter (eventType t) = none) : evalSignal t a f = 0 := by
  unfold evalSignal
  cases ha : toFloat (.str a) <;> cases hf : toFloat (.str f) <;> simp [h]

theorem evalSignal_hib (t a f : List Char) (av fv : PyFloat)
    (ha : toFloat (.str a) = some av) (hf : toFloat (.str f) = some fv)
    (hb : higherIsBetter (eventType t) = some true) :
    evalSignal t a f = if pyGt av fv then 1 else -1 := by
  unfold evalSignal
  rw [ha, hf, hb]

theorem evalSignal_lib (t a f : List Char) (av fv : PyFloat)
    (ha : toFloat (.str a) = some av) (hf : toFloat (.str f) = some fv)
    (hb : higherIsBetter (eventType t) = some false) :
    evalSignal t a f = if pyLt av fv then 1 else -1 := by
  unfold evalSignal
  rw [ha, hf, hb]

theorem pairScoreInc_foldl (cfg : Config) (now : Int) (base quote : List Char) :
    ∀ (evs : List Event) (a : ℚ),
      evs.foldl
        (fun acc ev =>
          if scoredEvent cfg ev then
            if curOf ev = base then acc + gain now ev
            else if curOf ev = quote then acc - gain now ev
            else acc
          else acc) a
        = a + (evs.map (fun ev =>
            if scoredEvent cfg ev then
              if curOf ev = base then gain now ev
              else if curOf ev = quote then -gain now ev
              else 0
            else 0)).sum := by
  intro evs
  induction evs with
  | nil => intro a; simp
  | cons e t ih =>
    intro a
    rw [List.foldl_cons, ih, List.map_cons, List.sum_cons]
    split_ifs <;> ring

theorem pairScoreInc_eq_sum (cfg : Config) (now : Int) (evs : List Event)
    (base quote : List Char) :
    pairScoreInc cfg now evs base quote
      = (evs.map (fun ev =>
          if scoredEvent cfg ev then
            if curOf ev = base then gain now ev
            else if curOf ev = quote then -gain now ev
            else 0
          else 0)).sum := by
  unfold pairScoreInc
  rw [pairScoreInc_foldl, zero_add]

theorem currencyScore_eq_sum (cfg : Config) (now : Int) (evs : List Event) (c : List Char) :
    currencyScore cfg now evs c
      = (evs.map (fun ev =>
          if scoredEvent cfg ev && decide (curOf ev = c) then gain now ev else 0)).sum := by
  induction evs with
  | nil => rfl
  | cons e t ih =>
    unfold currencyScore at ih ⊢
    rw [List.filter_cons]
    by_cases h : (scoredEvent cfg e && decide (curOf e = c)) = true
    · simp only [h, if_true, List.map_cons, List.sum_cons, ih]
    · rw [if_neg h, List.map_cons, List.sum_cons, if_neg h, zero_add, ih]

theorem sum_map_sub_pointwise {α : Type} (l : List α) (F G : α → ℚ) :
    (l.map (fun x => F x - G x)).sum = (l.map F).sum - (l.map G).sum := by
  induction l with
  | nil => simp
  | cons e t ih =>
    simp only [List.map_cons, List.sum_cons, ih]
    ring

/-! ### Claim theorems -/

/-- C2: `eval_signal` returns 0 when either value normalizes to absent or the
category's polarity is unknown; for a higher-is-better category it is +1
exactly when actual > forecast and −1 otherwise (so ties give −1); for the
lower-is-better category it is +1 exactly when actual < forecast and −1
otherwise; the polarity table has jobs = false, other = unknown, and every
remaining category true. -/
theorem signal_spec :
    (∀ t a f : List Char,
      toFloat (.str a) = none ∨ toFloat (.str f) = none → evalSignal t a f = 0)
  ∧ (∀ t a f : List Char,
      higherIsBetter (eventType t) = none → evalSignal t a f = 0)
  ∧ (∀ (t a f : List Char) (av fv : PyFloat),
      toFloat (.str a) = some av → toFloat (.str f) = some fv →
      higherIsBetter (eventType t) = some true →
      evalSignal t a f = if pyGt av fv then 1 else -1)
  ∧ (∀ (t a f : List Char) (av fv : PyFloat),
      toFloat (.str a) = some av → toFloat (.str f) = some fv →
      higherIsBetter (eventType t) = some false →
      evalSignal t a f = if pyLt av fv then 1 else -1)
  ∧ (∀ (t a f : List Char) (av : PyFloat),
      toFloat (.str a) = some av → toFloat (.str f) = some av →
      higherIsBetter (eventType t) = some true → evalSignal t a f = -1)
  ∧ higherIsBetter .jobs = some false
  ∧ higherIsBetter .other = none
  ∧ higherIsBetter .inflation = some true ∧ higherIsBetter .rates = some true
  ∧ higherIsBetter .gdp = some true ∧ higherIsBetter .retail = some true
  ∧ higherIsBetter .pmi = some true ∧ higherIsBetter .production = some true
  ∧ higherIsBetter .trade = some true ∧ higherIsBetter .sentiment = some true
  ∧ higherIsBetter .housing = some true := by
  refine ⟨evalSignal_absent, evalSignal_other, evalSignal_hib, evalSignal_lib,
    ?_, rfl, rfl, rfl, rfl, rfl, rfl, rfl, rfl, rfl, rfl, rfl⟩
  intro t a f av ha hf hb
  rw [evalSignal_hib t a f av av ha hf hb, pyGt_self]
  rfl

unseal Rat.add Rat.sub Rat.mul Rat.inv in
/-- Witness for C2: a concrete higher-is-better comparison, `CPI y/y` with
actual 3.5 against forecast 3.0, evaluated through the theorem. -/
theorem signal_spec_witness :
    evalSignal "CPI y/y".toList "3.5".toList "3.0".toList
      = if pyGt (.finite (7 / 2)) (.finite 3) then 1 else -1 :=
  signal_spec.2.2.1 "CPI y/y".toList "3.5".toList "3.0".toList
    (.finite (7 / 2)) (.finite 3) (by decide) (by decide) (by decide)

/-- C3 counterexample: the placeholder comparison of `_to_float` is
case-sensitive, and the string "nan" falls through to Python `float`, which
parses it as NaN — so "nan" does not normalize to absent as the claim
states. -/
theorem nan_string_not_absent :
    toFloat (.str "nan".toList) = some PyFloat.nan
  ∧ toFloat (.str "nan".toList) ≠ none := by
  exact ⟨by decide, by decide⟩

/-- C3 amended: `_to_float` returns absent for null, the empty string, and
the exact (case-sensitive) placeholder tokens; other unparsable strings such
as "NA" or "n/a" also yield absent via the parse-failure path, but "nan"
parses as float NaN. -/
theorem normalize_absent_tokens :
    toFloat .null = none
  ∧ toFloat (.str "".toList) = none
  ∧ toFloat (.str "—".toList) = none
  ∧ toFloat (.str "-".toList) = none
  ∧ toFloat (.str "N/A".toList) = none
  ∧ toFloat (.str "na".toList) = none
  ∧ toFloat (.str "NaN".toList) = none
  ∧ toFloat (.str "NA".toList) = none
  ∧ toFloat (.str "n/a".toList) = none
  ∧ toFloat (.str "nan".toList) = some PyFloat.nan := by
  decide

unseal Rat.add Rat.sub Rat.mul Rat.inv in
/-- C4: the normalizer's round trips — percent sign stripped without
rescaling, comma decimal separator, case-insensitive K/M/B/T suffix
multipliers, and whitespace removal. -/
theorem normalize_roundtrip :
    toFloat (.str "3.4%".toList) = some (.finite (17 / 5))
  ∧ toFloat (.str "65K".toList) = some (.finite 65000)
  ∧ toFloat (.str "65k".toList) = some (.finite 65000)
  ∧ toFloat (.str "1,2".toList) = some (.finite (6 / 5))
  ∧ toFloat (.str "2M".toList) = some (.finite 2000000)
  ∧ toFloat (.str "3B".toList) = some (.finite 3000000000)
  ∧ toFloat (.str "4T".toList) = some (.finite 4000000000000)
  ∧ toFloat (.str " 1 234 ".toList) = some (.finite 1234) := by
  decide

unseal Rat.add Rat.sub Rat.mul Rat.inv in
/-- C6 counterexample: the impact text "med" contains neither "high" nor
"medium", so under the claim its weight would be 1.0, yet `_impact_weight`
returns 1.3 because the source tests the substring "med", not "medium". -/
theorem impact_weight_med_counterexample :
    impactWeight "med".toList = 13 / 10
  ∧ containsSub "medium".toList ("med".toList.map Char.toLower) = false
  ∧ containsSub "high".toList ("med".toList.map Char.toLower) = false
  ∧ (13 / 10 : ℚ) ≠ 1 := by
  decide

unseal Rat.add Rat.sub Rat.mul Rat.inv in
/-- C6 amended: `_impact_weight` returns 2.0 when the lower-cased impact
text contains "high", else 1.3 when it contains "med" (hence any text
containing "medium"), else 1.0; `_recency_weight` tiers on event age —
≤ 6 h → 1.6, ≤ 24 h → 1.25, ≤ 72 h → 1.0, else 0.75 — and returns 1.0 for a
missing or invalid timestamp without raising. -/
theorem weight_contracts :
    (∀ s : List Char, impactWeight s =
      if containsSub "high".toList (s.map Char.toLower) then 2
      else if containsSub "med".toList (s.map Char.toLower) then 13 / 10
      else 1)
  ∧ (∀ t now : Int, recencyWeight (some t) now =
      if ((now - t : Int) : ℚ) / 3600 ≤ 6 then 8 / 5
      else if ((now - t : Int) : ℚ) / 3600 ≤ 24 then 5 / 4
      else if ((now - t : Int) : ℚ) / 3600 ≤ 72 then 1
      else 3 / 4)
  ∧ (∀ now : Int, recencyWeight none now = 1)
  ∧ recencyWeight (some 0) 0 = 8 / 5
  ∧ recencyWeight (some 0) (3600 * 10) = 5 / 4
  ∧ recencyWeight (some 0) (3600 * 48) = 1
  ∧ recencyWeight (some 0) (3600 * 100) = 3 / 4
  ∧ impactWeight "High Impact Expected".toList = 2
  ∧ impactWeight "Medium Impact Expected".toList = 13 / 10
  ∧ impactWeight [] = 1 := by
  refine ⟨fun s => rfl, fun t now => rfl, fun now => rfl, ?_, ?_, ?_, ?_, ?_, ?_, ?_⟩
  all_goals decide

/-- C10: `_recency_weight` only ever returns one of 1.6, 1.25, 1.0, 0.75,
and an event whose timestamp lies in the future of "now" (negative age)
receives the maximum weight 1.6 through the first tier's `age ≤ 6h` test. -/
theorem recency_weight_range :
    (∀ (ts : Option Int) (now : Int),
      recencyWeight ts now = 8 / 5 ∨ recencyWeight ts now = 5 / 4
        ∨ recencyWeight ts now = 1 ∨ recencyWeight ts now = 3 / 4)
  ∧ (∀ t now : Int, now < t → recencyWeight (some t) now = 8 / 5) := by
  constructor
  · intro ts now
    cases ts with
    | none => right; right; left; rfl
    | some t =>
      by_cases h1 : ((now : ℚ) - (t : ℚ)) / 3600 ≤ 6
      · left; simp [recencyWeight, h1]
      · by_cases h2 : ((now : ℚ) - (t : ℚ)) / 3600 ≤ 24
        · right; left; simp [recencyWeight, h1, h2]
        · by_cases h3 : ((now : ℚ) - (t : ℚ)) / 3600 ≤ 72
          · right; right; left; simp [recencyWeight, h1, h2, h3]
          · right; right; right; simp [recencyWeight, h1, h2, h3]
  · intro t now h
    have hq : ((now : ℚ) - (t : ℚ)) / 3600 ≤ 6 := by
      have h1 : ((now : ℚ) - (t : ℚ)) ≤ 0 := by
        have h0 : (now - t : Int) ≤ 0 := by omega
        exact_mod_cast h0
      rw [div_le_iff₀ (by norm_num : (0 : ℚ) < 3600)]
      linarith
    simp [recencyWeight, hq]

/-- Witness for C10: a timestamp 100 seconds in the future of now = 0 gets
recency weight 1.6. -/
theorem recency_weight_range_witness :
    (0 : Int) < 100 ∧ recencyWeight (some 100) 0 = 8 / 5 :=
  ⟨by decide, recency_weight_range.2 100 0 (by decide)⟩

unseal Rat.add Rat.sub Rat.mul Rat.inv in
/-- C5: a released event is surfaced iff (impact level ≥ configured minimum
AND core category) OR high impact OR surprise ratio ≥ configured minimum; a
pending event is surfaced iff impact level ≥ configured minimum AND core
category; the impact levels are high → 2, medium → 1, low/unknown → 0; and
at the boundary, a low-impact `other` event with surprise 0.05 is not
surfaced while the same event with high impact is. -/
theorem curation_boundary :
    (∀ (cfg : Config) (ev : Event), curatedReleased cfg ev = true ↔
      ((minImpactLevel cfg ≤ impactLevel (impactOf ev)
          ∧ eventType (titleOf ev) ∈ coreTypes)
        ∨ impactLevel (impactOf ev) = 2
        ∨ pyGe (surpriseRatio (actualOf ev) (forecastOf ev)) (.finite cfg.minSurprise) = true))
  ∧ (∀ (cfg : Config) (ev : Event), curatedPending cfg ev = true ↔
      (minImpactLevel cfg ≤ impactLevel (impactOf ev)
        ∧ eventType (titleOf ev) ∈ coreTypes))
  ∧ impactLevel "high".toList = 2 ∧ impactLevel "medium".toList = 1
  ∧ impactLevel "low".toList = 0 ∧ impactLevel "unknown".toList = 0
  ∧ eventType (titleOf evLowOther) = .other
  ∧ surpriseRatio (actualOf evLowOther) (forecastOf evLowOther) = .finite (1 / 20)
  ∧ curatedReleased defaultConfig evLowOther = false
  ∧ curatedReleased defaultConfig evHighOther = true := by
  refine ⟨?_, ?_, by decide, by decide, by decide, by decide, by decide, by decide,
    by decide, by decide⟩
  · intro cfg ev
    unfold curatedReleased
    simp only [Bool.or_eq_true, Bool.and_eq_true, decide_eq_true_eq]
    tauto
  · intro cfg ev
    unfold curatedPending
    simp only [Bool.and_eq_true, decide_eq_true_eq]

/-- C9: `_event_type` is exactly first-match-wins classification over the
ordered keyword groups (inflation, rates, jobs, gdp, retail, pmi,
production, trade, sentiment, housing) of `classifierGroups`, with `other`
when no group matches. -/
theorem classifier_first_match :
    ∀ title : List Char,
      eventType title = firstMatch classifierGroups (title.map Char.toLower) := by
  intro title
  simp only [eventType, firstMatch, classifierGroups, List.any_cons, List.any_nil,
    Bool.or_false, Bool.or_assoc]

unseal Rat.add Rat.sub Rat.mul Rat.inv in
/-- C1 counterexample: a released target-currency USD event (low impact,
core CPI category, 2.9% surprise) has weighted contribution
`signal × impact_weight × recency_weight = 1`, yet both the currency score
and the EURUSD pair score remain 0 because the curation filter `continue`s
before the scoring statements — contradicting the claim that scoring is
unaffected by curation. -/
theorem uncurated_event_not_scored :
    hasActual evUsdLowCpi = true
  ∧ curOf evUsdLowCpi ∈ ["USD".toList]
  ∧ (evalSignal (titleOf evUsdLowCpi) (actualOf evUsdLowCpi) (forecastOf evUsdLowCpi) : ℚ)
      * impactWeight (impactOf evUsdLowCpi) * recencyWeight evUsdLowCpi.timestamp 0 = 1
  ∧ currencyScore defaultConfig 0 (relevantEvents ["USD".toList] [evUsdLowCpi]) "USD".toList = 0
  ∧ pairScoreInc defaultConfig 0 (relevantEvents ["USD".toList, "EUR".toList] [evUsdLowCpi])
      "EUR".toList "USD".toList = 0
  ∧ (1 : ℚ) ≠ 0 := by
  decide

/-- C1 amended: a released event's weighted contribution
`signal × impact_weight × recency_weight` is added to its currency's score
(and added/subtracted on matching pairs) exactly when the event passes the
CurationFilter; an event dropped by the filter contributes nothing to the
numeric scores, so curation gates scoring as well as display. -/
theorem score_adds_only_curated_contributions :
    ∀ (cfg : Config) (now : Int) (evs : List Event) (e : Event) (c b q : List Char),
    (currencyScore cfg now (evs ++ [e]) c
      = currencyScore cfg now evs c
        + (if scoredEvent cfg e && decide (curOf e = c) then gain now e else 0))
  ∧ (pairScoreInc cfg now (evs ++ [e]) b q
      = pairScoreInc cfg now evs b q
        + (if scoredEvent cfg e then
             if curOf e = b then gain now e
             else if curOf e = q then -gain now e
             else 0
           else 0))
  ∧ gain now e = (evalSignal (titleOf e) (actualOf e) (forecastOf e) : ℚ)
      * impactWeight (impactOf e) * recencyWeight e.timestamp now := by
  intro cfg now evs e c b q
  refine ⟨?_, ?_, rfl⟩
  · rw [currencyScore_eq_sum, currencyScore_eq_sum, List.map_append, List.sum_append]
    simp
  · rw [pairScoreInc_eq_sum, pairScoreInc_eq_sum, List.map_append, List.sum_append]
    simp

unseal Rat.add Rat.sub Rat.mul Rat.inv in
/-- C7 counterexample: for the degenerate 6-letter pair "EUREUR" the loop's
`elif` only adds (never subtracts), so one scored EUR event of gain 2 gives
an incremental pair score 2 while the final subtraction
`CurrencyScore[EUR] − CurrencyScore[EUR]` is 0. -/
theorem pair_score_degenerate_counterexample :
    pairScoreInc defaultConfig 0 [evEurHighCpi] "EUR".toList "EUR".toList = 2
  ∧ currencyScore defaultConfig 0 [evEurHighCpi] "EUR".toList
      - currencyScore defaultConfig 0 [evEurHighCpi] "EUR".toList = 0
  ∧ (2 : ℚ) ≠ 0 := by
  decide

/-- C7 amended: for every configured pair whose base and quote currencies
differ, the incrementally accumulated pair score equals
`CurrencyScore[BASE] − CurrencyScore[QUOTE]`. -/
theorem pair_score_eq_sub :
    ∀ (cfg : Config) (now : Int) (evs : List Event) (base quote : List Char),
      base ≠ quote →
      pairScoreInc cfg now evs base quote
        = currencyScore cfg now evs base - currencyScore cfg now evs quote := by
  intro cfg now evs base quote hbq
  rw [pairScoreInc_eq_sum, currencyScore_eq_sum, currencyScore_eq_sum,
    ← sum_map_sub_pointwise evs
      (fun ev => if scoredEvent cfg ev && decide (curOf ev = base) then gain now ev else 0)
      (fun ev => if scoredEvent cfg ev && decide (curOf ev = quote) then gain now ev else 0)]
  congr 1
  apply List.map_congr_left
  intro ev _
  by_cases hs : scoredEvent cfg ev = true
  · by_cases hb : curOf ev = base
    · have hq : ¬curOf ev = quote := fun hc => hbq (hb.symm.trans hc)
      simp [hs, hb, hq, hbq]
    · by_cases hq : curOf ev = quote
      · simp [hs, hb, hq, hbq, hbq.symm]
      · simp [hs, hb, hq]
  · simp only [Bool.not_eq_true] at hs
    simp [hs]

/-- Witness for C7: the EURUSD instance on one scored EUR event, evaluated
through the theorem. -/
theorem pair_score_eq_sub_witness :
    pairScoreInc defaultConfig 0 [evEurHighCpi] "EUR".toList "USD".toList
      = currencyScore defaultConfig 0 [evEurHighCpi] "EUR".toList
        - currencyScore defaultConfig 0 [evEurHighCpi] "USD".toList :=
  pair_score_eq_sub defaultConfig 0 [evEurHighCpi] "EUR".toList "USD".toList (by decide)

/-- C8: for any permutation of the event list (same "now"), every currency
score and every incrementally accumulated pair score is identical, because
aggregation is a pure sum over per-event contributions. -/
theorem aggregation_perm_invariant :
    ∀ (cfg : Config) (now : Int) (evs evs' : List Event), evs.Perm evs' →
      (∀ c : List Char, currencyScore cfg now evs c = currencyScore cfg now evs' c)
    ∧ (∀ b q : List Char, pairScoreInc cfg now evs b q = pairScoreInc cfg now evs' b q) := by
  intro cfg now evs evs' hp
  constructor
  · intro c
    unfold currencyScore
    exact ((hp.filter _).map _).sum_eq
  · intro b q
    rw [pairScoreInc_eq_sum, pairScoreInc_eq_sum]
    exact (hp.map _).sum_eq

/-- Witness for C8: swapping a two-event list leaves the EUR score and the
EURUSD pair score unchanged, via the theorem. -/
theorem aggregation_perm_invariant_witness :
    currencyScore defaultConfig 0 [evEurHighCpi, evUsdLowCpi] "EUR".toList
      = currencyScore defaultConfig 0 [evUsdLowCpi, evEurHighCpi] "EUR".toList
  ∧ pairScoreInc defaultConfig 0 [evEurHighCpi, evUsdLowCpi] "EUR".toList "USD".toList
      = pairScoreInc defaultConfig 0 [evUsdLowCpi, evEurHighCpi] "EUR".toList "USD".toList :=
  ⟨(aggregation_perm_invariant defaultConfig 0 _ _
      (List.Perm.swap evUsdLowCpi evEurHighCpi [])).1 "EUR".toList,
   (aggregation_perm_invariant defaultConfig 0 _ _
      (List.Perm.swap evUsdLowCpi evEurHighCpi [])).2 "EUR".toList "USD".toList⟩

end TelBot
